import Mathlib

/-!
Shallow embedding of the `hosting_company` service
(`src/hosting_company/src/main.rs`) of rssblue/podcast_verify_example.

Conventions of the embedding:
* Rust `String`/`&str` values are Lean `String`s; where induction is needed
  the underlying `List Char` (`String.data`) is used.
* The `html!` macro of the `html_to_string_macro` crate renders its tags,
  attributes and text nodes as one concatenated string without inserting
  whitespace; the bodies below are transcribed accordingly.
* `axum` status codes are the inductive `StatusCode` below together with its
  numeric rendering `StatusCode.code`; a handler returning
  `Result<_, StatusCode>` becomes `Except StatusCode _`.
* The RSA keypair comes from the external `rsa` crate and is opaque to this
  program: the only observation `main.rs` makes of the public key is
  `to_public_key_pem(LineEnding::LF)`, so the key is modelled by that PEM
  string (`AppState.public_key_pem`).
* `url::Url::parse` is an external collaborator; it is modelled from the
  spec's words (see `urlParse`).
-/

/-! ## Substring machinery

`leadsWith hay needle` is `hay.starts_with(needle)` on character lists;
`hasSub hay needle` holds when `needle` occurs contiguously in `hay`.
These let theorems state "the rendered response references X". -/

def leadsWith : List Char → List Char → Bool
  | _, [] => true
  | [], _ :: _ => false
  | a :: as, b :: bs => a == b && leadsWith as bs

def hasSub : List Char → List Char → Bool
  | [], needle => leadsWith [] needle
  | hay@(_ :: rest), needle => leadsWith hay needle || hasSub rest needle

/-- `strHasSub hay needle`: the string `needle` occurs contiguously in `hay`. -/
def strHasSub (hay needle : String) : Bool :=
  hasSub hay.data needle.data

theorem leadsWith_nil_needle (a : List Char) : leadsWith a [] = true := by
  cases a <;> rfl

theorem leadsWith_append (n a b : List Char) (h : leadsWith a n = true) :
    leadsWith (a ++ b) n = true := by
  induction n generalizing a with
  | nil => exact leadsWith_nil_needle _
  | cons x n' ih =>
    cases a with
    | nil => simp [leadsWith] at h
    | cons y a' =>
      simp only [List.cons_append, leadsWith, Bool.and_eq_true] at h ⊢
      exact ⟨h.1, ih a' h.2⟩

theorem leadsWith_self_append (n b : List Char) : leadsWith (n ++ b) n = true := by
  induction n with
  | nil => exact leadsWith_nil_needle _
  | cons x n' ih => simp [leadsWith, ih]

theorem hasSub_append_right (a b n : List Char) (h : hasSub b n = true) :
    hasSub (a ++ b) n = true := by
  induction a with
  | nil => simpa using h
  | cons c a' ih =>
    simp only [List.cons_append, hasSub, Bool.or_eq_true]
    exact Or.inr ih

theorem hasSub_nil_needle (b : List Char) : hasSub b [] = true := by
  cases b with
  | nil => rfl
  | cons c rest => simp [hasSub, leadsWith]

theorem hasSub_append_left (a b n : List Char) (h : hasSub a n = true) :
    hasSub (a ++ b) n = true := by
  induction a with
  | nil =>
    cases n with
    | nil => exact hasSub_nil_needle b
    | cons x n' => simp [hasSub, leadsWith] at h
  | cons c a' ih =>
    simp only [hasSub, Bool.or_eq_true] at h
    simp only [List.cons_append, hasSub, Bool.or_eq_true]
    cases h with
    | inl h => exact Or.inl (leadsWith_append _ _ _ h)
    | inr h => exact Or.inr (ih h)

theorem hasSub_self_append (n b : List Char) : hasSub (n ++ b) n = true := by
  cases n with
  | nil => exact hasSub_nil_needle b
  | cons c n' =>
    simp only [List.cons_append, hasSub, Bool.or_eq_true]
    exact Or.inl (leadsWith_self_append (c :: n') b)

/-! ## Data model (`main.rs`) -/

/-- HTTP status codes this program produces. -/
inductive StatusCode where
  | ok
  | badRequest
  | notFound
deriving DecidableEq, Repr

/-- The numeric rendering of a status code on the wire. -/
def StatusCode.code : StatusCode → Nat
  | .ok => 200
  | .badRequest => 400
  | .notFound => 404

/-- `Customer` of `main.rs`: email and (cleartext) password. -/
structure Customer where
  email : String
  password : String
deriving DecidableEq, Repr

/-- `Podcast` of `main.rs`. -/
structure Podcast where
  title : String
  slug : String
  owner : Customer
deriving DecidableEq, Repr

/-- `slug_to_podcast` of `main.rs`:
`podcasts.into_iter().find(|podcast| podcast.slug == slug)`. -/
def slug_to_podcast (podcasts : List Podcast) (slug : String) : Option Podcast :=
  podcasts.find? (fun podcast => podcast.slug == slug)

/-- The registry built in `main()`: Alice's and Bob's podcasts. -/
def customer_alice : Customer :=
  { email := "alice@example.com", password := "password123" }

def customer_bob : Customer :=
  { email := "bob@example.com", password := "password456" }

def alice_podcast : Podcast :=
  { title := "Alice's Podcast", slug := "alice-podcast", owner := customer_alice }

def bob_podcast : Podcast :=
  { title := "Bob's Podcast", slug := "bob-podcast", owner := customer_bob }

def app_podcasts : List Podcast := [alice_podcast, bob_podcast]

/-! ## `pem_to_base64` (`main.rs`)

Rust's `str::lines` splits at every `'\n'`, strips a `'\r'` that stood
right before a `'\n'`, and drops a final empty segment (a trailing line
terminator yields no extra line).  `pem_to_base64` filters out the lines
starting with `"-----"` and concatenates the rest. -/

/-- Split a character list at every newline (`str::split('\n')`): always
returns at least one segment. -/
def splitNL : List Char → List (List Char)
  | [] => [[]]
  | c :: rest =>
    if c = '\n' then [] :: splitNL rest
    else
      match splitNL rest with
      | [] => [[c]]
      | p :: ps => (c :: p) :: ps

/-- Strip one trailing carriage return (the `"\r\n"` case of `str::lines`). -/
def stripCR (line : List Char) : List Char :=
  if line.getLast? = some '\r' then line.dropLast else line

/-- Rust `str::lines` on a character list. -/
def rustLines (s : List Char) : List (List Char) :=
  (splitNL s).dropLast.map stripCR ++
    (match (splitNL s).getLast? with
     | none => []
     | some [] => []
     | some l => [l])

/-- `"-----"`, the start of a PEM framing line. -/
def dashes : List Char := ['-', '-', '-', '-', '-']

/-- `pem_to_base64` of `main.rs` on the underlying characters:
`pem_string.lines().filter(|line| !line.starts_with("-----")).collect::<Vec<_>>().join("")`. -/
def pemToBase64List (s : List Char) : List Char :=
  ((rustLines s).filter (fun line => !leadsWith line dashes)).flatten

/-- `pem_to_base64` of `main.rs`: removes the header and footer from a
PEM-encoded key, as well as any line breaks. -/
def pem_to_base64 (pem_string : String) : String :=
  String.mk (pemToBase64List pem_string.data)

/-- The base64 alphabet used by PEM bodies (with `'='` padding). -/
def isBase64Char (c : Char) : Bool :=
  c.isAlphanum || c == '+' || c == '/' || c == '='

/-- Join lines with a single `'\n'` between consecutive lines. -/
def joinLinesNL : List (List Char) → List Char
  | [] => []
  | l :: ls =>
    match ls with
    | [] => l
    | _ :: _ => l ++ '\n' :: joinLinesNL ls

/-- A PEM-framed document: header line, body lines and footer line joined
by `'\n'`, with the customary final newline (`LineEnding::LF`). -/
def pemDoc (header : List Char) (body : List (List Char)) (footer : List Char) :
    List Char :=
  joinLinesNL (header :: (body ++ [footer])) ++ ['\n']

/-! ### Behaviour of `pem_to_base64` on well-formed PEM documents -/

theorem splitNL_append_newline (l rest : List Char) (h : ∀ c ∈ l, c ≠ '\n') :
    splitNL (l ++ '\n' :: rest) = l :: splitNL rest := by
  induction l with
  | nil => simp [splitNL]
  | cons c l' ih =>
    have hc : c ≠ '\n' := h c (List.mem_cons_self c l')
    have ih' := ih (fun x hx => h x (List.mem_cons_of_mem c hx))
    show splitNL (c :: (l' ++ '\n' :: rest)) = (c :: l') :: splitNL rest
    rw [splitNL, if_neg hc, ih']

theorem splitNL_joinLinesNL (ls : List (List Char)) (hne : ls ≠ [])
    (h : ∀ l ∈ ls, ∀ c ∈ l, c ≠ '\n') :
    splitNL (joinLinesNL ls ++ ['\n']) = ls ++ [[]] := by
  induction ls with
  | nil => exact absurd rfl hne
  | cons l ls' ih =>
    have hl : ∀ c ∈ l, c ≠ '\n' := h l (List.mem_cons_self l ls')
    cases ls' with
    | nil =>
      show splitNL (l ++ ['\n']) = [l, []]
      have := splitNL_append_newline l [] hl
      simpa using this
    | cons m ms =>
      have hrest : ∀ x ∈ m :: ms, ∀ c ∈ x, c ≠ '\n' :=
        fun x hx => h x (List.mem_cons_of_mem l hx)
      have ih' := ih (by simp) hrest
      show splitNL ((l ++ '\n' :: joinLinesNL (m :: ms)) ++ ['\n']) =
        (l :: m :: ms) ++ [[]]
      rw [List.append_assoc, List.cons_append,
        splitNL_append_newline l _ hl, ih']
      rfl

theorem stripCR_eq_self (l : List Char) (h : ∀ c ∈ l, c ≠ '\r') :
    stripCR l = l := by
  unfold stripCR
  rw [if_neg]
  intro hlast
  exact h '\r' (List.mem_of_getLast?_eq_some hlast) rfl

theorem rustLines_pemDoc (header footer : List Char) (body : List (List Char))
    (hnl : ∀ l ∈ header :: (body ++ [footer]), ∀ c ∈ l, c ≠ '\n')
    (hcr : ∀ l ∈ header :: (body ++ [footer]), ∀ c ∈ l, c ≠ '\r') :
    rustLines (pemDoc header body footer) = header :: (body ++ [footer]) := by
  unfold pemDoc rustLines
  rw [splitNL_joinLinesNL (header :: (body ++ [footer])) (by simp) hnl]
  rw [show (header :: (body ++ [footer])) ++ [([] : List Char)] =
    (header :: (body ++ [footer])) ++ [[]] from rfl]
  rw [List.dropLast_concat, List.getLast?_concat]
  have hmap : (header :: (body ++ [footer])).map stripCR =
      List.map id (header :: (body ++ [footer])) := by
    apply List.map_congr_left
    intro l hl
    exact stripCR_eq_self l (hcr l hl)
  rw [hmap, List.map_id]
  simp

theorem leadsWith_dashes_of_base64 (l : List Char)
    (h : ∀ c ∈ l, isBase64Char c = true) : leadsWith l dashes = false := by
  cases l with
  | nil => rfl
  | cons c l' =>
    have hc : isBase64Char c = true := h c (List.mem_cons_self c l')
    have : c ≠ '-' := by
      intro hcd
      subst hcd
      simp [isBase64Char, Char.isAlphanum, Char.isAlpha, Char.isUpper,
        Char.isLower, Char.isDigit] at hc
    simp [dashes, leadsWith, this]

theorem pemToBase64_pemDoc (header footer : List Char) (body : List (List Char))
    (hh : leadsWith header dashes = true)
    (hf : leadsWith footer dashes = true)
    (hhc : ∀ c ∈ header, c ≠ '\n' ∧ c ≠ '\r')
    (hfc : ∀ c ∈ footer, c ≠ '\n' ∧ c ≠ '\r')
    (hb : ∀ l ∈ body, ∀ c ∈ l, isBase64Char c = true) :
    pemToBase64List (pemDoc header body footer) = body.flatten := by
  have hbase_nl : ∀ l ∈ body, ∀ c ∈ l, c ≠ '\n' := by
    intro l hl c hc heq
    have := hb l hl c hc
    subst heq
    simp [isBase64Char, Char.isAlphanum, Char.isAlpha, Char.isUpper,
      Char.isLower, Char.isDigit] at this
  have hbase_cr : ∀ l ∈ body, ∀ c ∈ l, c ≠ '\r' := by
    intro l hl c hc heq
    have := hb l hl c hc
    subst heq
    simp [isBase64Char, Char.isAlphanum, Char.isAlpha, Char.isUpper,
      Char.isLower, Char.isDigit] at this
  have hnl : ∀ l ∈ header :: (body ++ [footer]), ∀ c ∈ l, c ≠ '\n' := by
    intro l hl
    rcases List.mem_cons.1 hl with h1 | h1
    · exact h1 ▸ fun c hc => (hhc c hc).1
    rcases List.mem_append.1 h1 with h2 | h2
    · exact hbase_nl l h2
    · have : l = footer := by simpa using h2
      exact this ▸ fun c hc => (hfc c hc).1
  have hcr : ∀ l ∈ header :: (body ++ [footer]), ∀ c ∈ l, c ≠ '\r' := by
    intro l hl
    rcases List.mem_cons.1 hl with h1 | h1
    · exact h1 ▸ fun c hc => (hhc c hc).2
    rcases List.mem_append.1 h1 with h2 | h2
    · exact hbase_cr l h2
    · have : l = footer := by simpa using h2
      exact this ▸ fun c hc => (hfc c hc).2
  unfold pemToBase64List
  rw [rustLines_pemDoc header footer body hnl hcr]
  have hbodyf : body.filter (fun line => !leadsWith line dashes) = body := by
    apply List.filter_eq_self.2
    intro l hl
    simp [leadsWith_dashes_of_base64 l (hb l hl)]
  rw [List.filter_cons, if_neg (by simp [hh]),
    List.filter_append, hbodyf, List.filter_cons, if_neg (by simp [hf]),
    List.filter_nil, List.append_nil]

/-! ## The URL parser (external `url` crate) -/

/-- A parsed absolute URL: its scheme and everything after the colon. -/
structure ParsedUrl where
  scheme : String
  rest : String
deriving DecidableEq, Repr

/-- Characters allowed after the first character of a URL scheme. -/
def isSchemeRestChar (c : Char) : Bool :=
  c.isAlphanum || c == '+' || c == '-' || c == '.'

/-- Split a character list at the first colon, if any. -/
def splitAtColon : List Char → Option (List Char × List Char)
  | [] => none
  | c :: rest =>
    if c = ':' then some ([], rest)
    else
      match splitAtColon rest with
      | none => none
      | some (a, b) => some (c :: a, b)

/-- Modelled from the spec: `returnUrl` "must be an absolute URL per
standard URL grammar" and is parsed by `url::Url::parse`, an external
collaborator outside this repository.  Parsing succeeds exactly when the
string starts with a scheme (a letter followed by letters, digits, `+`,
`-` or `.`) and a colon, per RFC 3986's absolute-URI shape. -/
def urlParse (s : String) : Option ParsedUrl :=
  match splitAtColon s.data with
  | none => none
  | some (schemeChars, rest) =>
    match schemeChars with
    | [] => none
    | c :: cs =>
      if c.isAlpha && cs.all isSchemeRestChar then
        some { scheme := String.mk (c :: cs), rest := String.mk rest }
      else none

/-! ## Rendering (`main.rs`)

The `html!` macro concatenates its tags, attributes and text nodes; the
string literals below transcribe the macro invocations of `main.rs`. -/

/-- `base_html` of `main.rs`: the page shell around a title and a main block. -/
def base_html (title main : String) : String :=
  "<!DOCTYPE html><html><head><meta charset=\"UTF-8\"/><meta name=\"viewport\" content=\"width=device-width, initial-scale=1.0\" /><link rel=\"stylesheet\" href=\"https://unpkg.com/mvp.css\" /><title>" ++
    title ++
    "</title></head><body><header><nav><span>🔵 Hosting Company</span><ul><li><a href=\"/\">Home</a></li></ul></nav></header><main>" ++
    main ++ "</main></body></html>"

/-- `error` of `main.rs`: the crimson error fragment around a message. -/
def errorFragment (message : String) : String :=
  "<h2 style=\"color: crimson;\">Error</h2><p>" ++ message ++ "</p>"

/-- Query parameters of the verify endpoint (`VerifyParams` of `main.rs`):
`encryptedString` (the challenge token) and `returnUrl`, both optional. -/
structure VerifyParams where
  encrypted_string : Option String
  return_url : Option String
deriving DecidableEq, Repr

/-- The credential-entry form of the fully valid branch of `verify`
(`main.rs` lines 242-260), glued after the `<h1>` title: empty email and
password inputs, no datalist of suggestions. -/
def credentialFormHtml : String :=
  "</h1><form method=\"POST\" autocomplete=\"off\"><input autocomplete=\"false\" name=\"hidden\" type=\"text\" style=\"display:none;\" /><label for=\"email\">Email</label><input type=\"email\" id=\"email\" name=\"email\" autocomplete=\"off\"/><label for=\"password\">Password</label><input type=\"password\" id=\"password\" name=\"password\" autocomplete=\"off\"/><button type=\"submit\">Verify</button></form>"

/-- The page title the `verify` handler computes for a resolved podcast:
`format!("Verify ownership of “{}”", podcast.title)`. -/
def verifyTitle (podcast : Podcast) : String :=
  "Verify ownership of “" ++ podcast.title ++ "”"

/-- The `verify` handler of `main.rs` (lines 170-261): resolves the slug,
then requires `encryptedString`, then requires `returnUrl`, then parses
`returnUrl`; the first failing check returns its error page, and a fully
valid request returns the credential form.  The handler reads only
`state.podcasts` of the application state, so the registry is the
parameter. -/
def verify (podcasts : List Podcast) (slug : String) (params : VerifyParams) :
    StatusCode × String :=
  match slug_to_podcast podcasts slug with
  | none =>
    (StatusCode.notFound,
      base_html "Not Found"
        ("<h1>Not Found</h1><p>No podcast with slug <code>" ++ slug ++
          "</code> found.</p>"))
  | some podcast =>
    match params.encrypted_string with
    | none =>
      (StatusCode.badRequest,
        base_html (verifyTitle podcast)
          ("<h1>" ++ verifyTitle podcast ++ "</h1>" ++
            errorFragment "URL parameter <code>encryptedString</code> is required."))
    | some _ =>
      match params.return_url with
      | none =>
        (StatusCode.badRequest,
          base_html (verifyTitle podcast)
            ("<h1>" ++ verifyTitle podcast ++ "</h1>" ++
              errorFragment "URL parameter <code>returnUrl</code> is required."))
      | some return_url =>
        match urlParse return_url with
        | none =>
          (StatusCode.badRequest,
            base_html (verifyTitle podcast)
              ("<h1>" ++ verifyTitle podcast ++ "</h1>" ++
                errorFragment "Invalid <code>returnUrl</code>."))
        | some _ =>
          (StatusCode.ok,
            base_html (verifyTitle podcast)
              ("<h1>" ++ verifyTitle podcast ++ credentialFormHtml))

/-! ## The feed (`main.rs`) -/

/-- `Podcast::feed` of `main.rs`: the RSS document with the
`podcast:verify` element.  `public_key_pem` is
`public_key.to_public_key_pem(LineEnding::LF)`. -/
def Podcast.feed (self : Podcast) (public_key_pem : String) : String :=
  "<?xml version=\"1.0\" encoding=\"UTF-8\"?>\n<rss version=\"2.0\" xmlns:podcast=\"https://podcastindex.org/namespace/1.0\">\n  <channel>\n    <title>" ++
    self.title ++
    "</title>\n    <podcast:verify\n      " ++
    ("verifyUrl=\"http://localhost:8081/feed/" ++ self.slug ++ "/verify\"") ++
    "\n      " ++
    ("publicKey=\"" ++ pem_to_base64 public_key_pem ++ "\"") ++
    "\n      />\n  </channel>\n</rss>"

/-- The application state of `main.rs`, with the RSA public key modelled by
its PEM encoding (the only observation the program makes of it); the
private key is never read by any handler. -/
structure AppState where
  podcasts : List Podcast
  public_key_pem : String

/-- The `feed` handler of `main.rs` (lines 124-134): `404` for an unknown
slug, otherwise the XML feed with its `application/xml` content type. -/
def feed (state : AppState) (slug : String) :
    Except StatusCode (String × String) :=
  match slug_to_podcast state.podcasts slug with
  | none => Except.error StatusCode.notFound
  | some podcast =>
    Except.ok ("application/xml", Podcast.feed podcast state.public_key_pem)

/-! ## String-level substring lemmas -/

theorem strHasSub_append_right (a b n : String) (h : strHasSub b n = true) :
    strHasSub (a ++ b) n = true := by
  unfold strHasSub at h ⊢
  rw [String.data_append]
  exact hasSub_append_right _ _ _ h

theorem strHasSub_append_left (a b n : String) (h : strHasSub a n = true) :
    strHasSub (a ++ b) n = true := by
  unfold strHasSub at h ⊢
  rw [String.data_append]
  exact hasSub_append_left _ _ _ h

theorem strHasSub_self_append (n b : String) : strHasSub (n ++ b) n = true := by
  unfold strHasSub
  rw [String.data_append]
  exact hasSub_self_append _ _

theorem hasSub_self (n : List Char) : hasSub n n = true := by
  have := hasSub_self_append n []
  simpa using this

theorem strHasSub_self (n : String) : strHasSub n n = true :=
  hasSub_self n.data

/-! ## Helper facts about the registry lookup -/

theorem slug_of_slug_to_podcast {podcasts : List Podcast} {slug : String}
    {p : Podcast} (h : slug_to_podcast podcasts slug = some p) : p.slug = slug := by
  have := List.find?_some h
  simpa using this

theorem mem_of_slug_to_podcast {podcasts : List Podcast} {slug : String}
    {p : Podcast} (h : slug_to_podcast podcasts slug = some p) : p ∈ podcasts :=
  List.mem_of_find?_eq_some h

/-- An example PEM document standing in for
`public_key.to_public_key_pem(LineEnding::LF)` in concrete instantiations. -/
def examplePem : String :=
  "-----BEGIN PUBLIC KEY-----\nMIIBIjANBg\nAQAB\n-----END PUBLIC KEY-----\n"

/-! ## Claims -/

set_option maxRecDepth 40000

/-- Claim C10: `slug_to_podcast podcasts slug` returns `some p` exactly when
the list splits as `l1 ++ p :: l2` with `p.slug = slug` and no podcast of
`l1` carrying the slug (so `p` is the first match in list order), and
returns `none` exactly when no podcast of the list carries the slug: the
lookup is total via `Option`. -/
theorem slug_to_podcast_spec (podcasts : List Podcast) (slug : String) :
    (∀ p, slug_to_podcast podcasts slug = some p ↔
      p.slug = slug ∧ ∃ l1 l2, podcasts = l1 ++ p :: l2 ∧
        ∀ q ∈ l1, q.slug ≠ slug) ∧
    (slug_to_podcast podcasts slug = none ↔ ∀ q ∈ podcasts, q.slug ≠ slug) := by
  constructor
  · intro p
    unfold slug_to_podcast
    rw [List.find?_eq_some]
    simp
  · unfold slug_to_podcast
    rw [List.find?_eq_none]
    simp

/-- Claim C10, instantiated: on the registry of `main()`, the slug
`bob-podcast` resolves to Bob's podcast, the first (and only) match. -/
theorem slug_to_podcast_spec_witness :
    slug_to_podcast app_podcasts "bob-podcast" = some bob_podcast :=
  ((slug_to_podcast_spec app_podcasts "bob-podcast").1 bob_podcast).2
    ⟨by decide, [alice_podcast], [], by decide, by decide⟩

/-- Claim C9: for a slug missing from the registry, the `feed` handler
returns the `NOT_FOUND` status (rendered 404) and no feed document. -/
theorem feed_unknown_slug (state : AppState) (slug : String)
    (h : slug_to_podcast state.podcasts slug = none) :
    feed state slug = Except.error StatusCode.notFound ∧
      StatusCode.notFound.code = 404 := by
  constructor
  · unfold feed
    rw [h]
  · rfl

/-- Claim C9 at a concrete input: `unknown-podcast` is not registered and
its feed request errors with 404. -/
theorem feed_unknown_slug_witness :
    feed { podcasts := app_podcasts, public_key_pem := examplePem }
        "unknown-podcast" =
      Except.error StatusCode.notFound ∧ StatusCode.notFound.code = 404 :=
  feed_unknown_slug { podcasts := app_podcasts, public_key_pem := examplePem }
    "unknown-podcast" (by decide)

/-- Claim C8: the challenge token's value is never inspected beyond
presence: two verification requests identical except for the (present)
`encryptedString` value produce identical responses, status and body. -/
theorem verify_ignores_token_value (podcasts : List Podcast) (slug : String)
    (ru : Option String) (t1 t2 : String) :
    verify podcasts slug { encrypted_string := some t1, return_url := ru } =
      verify podcasts slug { encrypted_string := some t2, return_url := ru } := by
  unfold verify
  cases slug_to_podcast podcasts slug <;> rfl

/-- Claim C4: on any well-formed PEM-framed key document (framing lines
starting with `-----`, base64 body lines, LF line endings),
`pem_to_base64` returns exactly the concatenated base64 key material: the
result contains no framing marker (no `-` at all) and no line break, the
encoding is deterministic (it is a function), and re-wrapping the result
with standard PEM framing — any split of it into base64 lines between the
same framing lines — extracts byte-identical key material. -/
theorem pem_to_base64_round_trip (header footer : List Char)
    (body : List (List Char))
    (hh : leadsWith header dashes = true)
    (hf : leadsWith footer dashes = true)
    (hhc : ∀ c ∈ header, c ≠ '\n' ∧ c ≠ '\r')
    (hfc : ∀ c ∈ footer, c ≠ '\n' ∧ c ≠ '\r')
    (hb : ∀ l ∈ body, ∀ c ∈ l, isBase64Char c = true) :
    pem_to_base64 (String.mk (pemDoc header body footer)) =
      String.mk body.flatten ∧
    (∀ c ∈ pemToBase64List (pemDoc header body footer),
      isBase64Char c = true) ∧
    (∀ c ∈ pemToBase64List (pemDoc header body footer),
      c ≠ '\n' ∧ c ≠ '-') ∧
    (∀ body2, body2.flatten = body.flatten →
      (∀ l ∈ body2, ∀ c ∈ l, isBase64Char c = true) →
      pemToBase64List (pemDoc header body2 footer) =
        pemToBase64List (pemDoc header body footer)) := by
  have hmain := pemToBase64_pemDoc header footer body hh hf hhc hfc hb
  refine ⟨?_, ?_, ?_, ?_⟩
  · show String.mk (pemToBase64List (String.mk (pemDoc header body footer)).data) =
      String.mk body.flatten
    exact congrArg String.mk hmain
  · intro c hc
    rw [hmain] at hc
    rcases List.mem_flatten.1 hc with ⟨l, hl, hcl⟩
    exact hb l hl c hcl
  · intro c hc
    rw [hmain] at hc
    rcases List.mem_flatten.1 hc with ⟨l, hl, hcl⟩
    have hb64 := hb l hl c hcl
    constructor
    · intro heq
      subst heq
      simp [isBase64Char, Char.isAlphanum, Char.isAlpha, Char.isUpper,
        Char.isLower, Char.isDigit] at hb64
    · intro heq
      subst heq
      simp [isBase64Char, Char.isAlphanum, Char.isAlpha, Char.isUpper,
        Char.isLower, Char.isDigit] at hb64
  · intro body2 hjoin hb2
    have h2 := pemToBase64_pemDoc header footer body2 hh hf hhc hfc hb2
    rw [h2, hmain, hjoin]

/-- Claim C4 at a concrete input: a two-line PEM body is extracted to its
concatenation, with framing and newlines gone. -/
theorem pem_to_base64_round_trip_witness :
    pem_to_base64 (String.mk (pemDoc "-----BEGIN PUBLIC KEY-----".data
        ["MIIBIjANBg".data, "AQAB".data] "-----END PUBLIC KEY-----".data)) =
      String.mk (List.flatten ["MIIBIjANBg".data, "AQAB".data]) :=
  (pem_to_base64_round_trip "-----BEGIN PUBLIC KEY-----".data
    "-----END PUBLIC KEY-----".data ["MIIBIjANBg".data, "AQAB".data]
    (by decide) (by decide) (by decide) (by decide) (by decide)).1

/-- Claim C1 as stated is false: the validator does not resolve URL
validity before podcast lookup.  For the request with an unknown slug and
no `returnUrl` at all, the handler answers 404 Not Found, not the
BadRequest the claimed ordering would demand. -/
theorem verify_order_counterexample :
    (verify app_podcasts "unknown-podcast"
        { encrypted_string := none, return_url := none }).1 =
      StatusCode.notFound ∧
    (verify app_podcasts "unknown-podcast"
        { encrypted_string := none, return_url := none }).1 ≠
      StatusCode.badRequest := by
  constructor
  · rfl
  · decide

/-- Claim C1 (amended): the `verify` handler runs its checks in the fixed
order slug resolution in the registry (else 404), `encryptedString`
(challenge token) presence (else 400), `returnUrl` presence (else 400),
`returnUrl` parses as an absolute URL (else 400); the first failing check
terminates with that error page, so podcast existence is resolved before
the challenge-token and returnUrl checks, and token presence before
returnUrl presence and validity. -/
theorem verify_check_order (podcasts : List Podcast) (slug : String)
    (es ru : Option String) :
    (slug_to_podcast podcasts slug = none →
      (verify podcasts slug { encrypted_string := es, return_url := ru }).1 =
        StatusCode.notFound) ∧
    (∀ p, slug_to_podcast podcasts slug = some p → es = none →
      (verify podcasts slug { encrypted_string := es, return_url := ru }).1 =
        StatusCode.badRequest ∧
      strHasSub
        (verify podcasts slug { encrypted_string := es, return_url := ru }).2
        "encryptedString" = true) ∧
    (∀ p t, slug_to_podcast podcasts slug = some p → es = some t → ru = none →
      (verify podcasts slug { encrypted_string := es, return_url := ru }).1 =
        StatusCode.badRequest ∧
      strHasSub
        (verify podcasts slug { encrypted_string := es, return_url := ru }).2
        "returnUrl" = true) ∧
    (∀ p t r, slug_to_podcast podcasts slug = some p → es = some t →
      ru = some r → urlParse r = none →
      (verify podcasts slug { encrypted_string := es, return_url := ru }).1 =
        StatusCode.badRequest ∧
      strHasSub
        (verify podcasts slug { encrypted_string := es, return_url := ru }).2
        "Invalid <code>returnUrl</code>." = true) ∧
    (∀ p t r u, slug_to_podcast podcasts slug = some p → es = some t →
      ru = some r → urlParse r = some u →
      (verify podcasts slug { encrypted_string := es, return_url := ru }).1 =
        StatusCode.ok) := by
  refine ⟨?_, ?_, ?_, ?_, ?_⟩
  · intro h
    unfold verify
    rw [h]
  · intro p hp hes
    subst hes
    unfold verify
    rw [hp]
    refine ⟨rfl, ?_⟩
    unfold base_html
    apply strHasSub_append_left
    apply strHasSub_append_right
    apply strHasSub_append_right
    unfold errorFragment
    apply strHasSub_append_left
    apply strHasSub_append_right
    decide
  · intro p t hp hes hru
    subst hes
    subst hru
    unfold verify
    rw [hp]
    refine ⟨rfl, ?_⟩
    unfold base_html
    apply strHasSub_append_left
    apply strHasSub_append_right
    apply strHasSub_append_right
    unfold errorFragment
    apply strHasSub_append_left
    apply strHasSub_append_right
    decide
  · intro p t r hp hes hru hparse
    subst hes
    subst hru
    unfold verify
    rw [hp]
    dsimp only
    rw [hparse]
    refine ⟨rfl, ?_⟩
    unfold base_html
    apply strHasSub_append_left
    apply strHasSub_append_right
    apply strHasSub_append_right
    unfold errorFragment
    apply strHasSub_append_left
    apply strHasSub_append_right
    decide
  · intro p t r u hp hes hru hparse
    subst hes
    subst hru
    unfold verify
    rw [hp]
    dsimp only
    rw [hparse]

/-- Claim C2 as stated is false: for an unknown slug with a valid
`returnUrl`, the handler does answer 404, but the response does not
contain the `returnUrl` — no redirect target is rendered. -/
theorem verify_unknown_slug_counterexample :
    (verify app_podcasts "unknown-podcast"
        { encrypted_string := some "tok",
          return_url := some "http://example.com/back" }).1 =
      StatusCode.notFound ∧
    strHasSub (verify app_podcasts "unknown-podcast"
        { encrypted_string := some "tok",
          return_url := some "http://example.com/back" }).2
      "http://example.com/back" = false := by
  exact ⟨rfl, by decide⟩

/-- Claim C2 (amended): for every verification request whose slug does not
resolve in the registry, whatever the other parameters, the outcome is 404
Not Found with a body naming the unknown slug; the `returnUrl` is never
parsed and no redirect target is rendered. -/
theorem verify_unknown_slug (podcasts : List Podcast) (slug : String)
    (params : VerifyParams) (h : slug_to_podcast podcasts slug = none) :
    verify podcasts slug params =
      (StatusCode.notFound,
        base_html "Not Found"
          ("<h1>Not Found</h1><p>No podcast with slug <code>" ++ slug ++
            "</code> found.</p>")) ∧
    strHasSub (verify podcasts slug params).2 slug = true ∧
    StatusCode.notFound.code = 404 := by
  have heq : verify podcasts slug params =
      (StatusCode.notFound,
        base_html "Not Found"
          ("<h1>Not Found</h1><p>No podcast with slug <code>" ++ slug ++
            "</code> found.</p>")) := by
    unfold verify
    rw [h]
  refine ⟨heq, ?_, rfl⟩
  rw [heq]
  dsimp only
  unfold base_html
  apply strHasSub_append_left
  apply strHasSub_append_right
  apply strHasSub_append_left
  apply strHasSub_append_right
  exact strHasSub_self slug

/-- Claim C2 (amended) at a concrete input. -/
theorem verify_unknown_slug_witness :
    verify app_podcasts "nope" { encrypted_string := none, return_url := none } =
      (StatusCode.notFound,
        base_html "Not Found"
          ("<h1>Not Found</h1><p>No podcast with slug <code>" ++ "nope" ++
            "</code> found.</p>")) ∧
    strHasSub (verify app_podcasts "nope"
        { encrypted_string := none, return_url := none }).2 "nope" = true ∧
    StatusCode.notFound.code = 404 :=
  verify_unknown_slug app_podcasts "nope"
    { encrypted_string := none, return_url := none } (by decide)

/-- Claim C6 as stated is false: a request with `returnUrl` absent is not
always a 400 — with an unknown slug the handler answers 404 first. -/
theorem verify_missing_return_url_counterexample :
    (verify app_podcasts "unknown-podcast"
        { encrypted_string := some "tok", return_url := none }).1 =
      StatusCode.notFound ∧
    (verify app_podcasts "unknown-podcast"
        { encrypted_string := some "tok", return_url := none }).1 ≠
      StatusCode.badRequest := by
  exact ⟨rfl, by decide⟩

/-- Claim C6 (amended): for every verification request with a known slug
and a present `encryptedString` but no `returnUrl`, the outcome is 400
Bad Request with a body that references `returnUrl` — and, contrary to
the claimed "no context", the body also carries the resolved podcast's
title. -/
theorem verify_missing_return_url (podcasts : List Podcast) (slug : String)
    (p : Podcast) (tok : String)
    (hp : slug_to_podcast podcasts slug = some p) :
    verify podcasts slug { encrypted_string := some tok, return_url := none } =
      (StatusCode.badRequest,
        base_html (verifyTitle p)
          ("<h1>" ++ verifyTitle p ++ "</h1>" ++
            errorFragment "URL parameter <code>returnUrl</code> is required.")) ∧
    strHasSub (verify podcasts slug
        { encrypted_string := some tok, return_url := none }).2
      "returnUrl" = true ∧
    strHasSub (verify podcasts slug
        { encrypted_string := some tok, return_url := none }).2
      p.title = true ∧
    StatusCode.badRequest.code = 400 := by
  have heq : verify podcasts slug
      { encrypted_string := some tok, return_url := none } =
      (StatusCode.badRequest,
        base_html (verifyTitle p)
          ("<h1>" ++ verifyTitle p ++ "</h1>" ++
            errorFragment "URL parameter <code>returnUrl</code> is required.")) := by
    unfold verify
    rw [hp]
  refine ⟨heq, ?_, ?_, rfl⟩
  · rw [heq]
    dsimp only
    unfold base_html
    apply strHasSub_append_left
    apply strHasSub_append_right
    apply strHasSub_append_right
    unfold errorFragment
    apply strHasSub_append_left
    apply strHasSub_append_right
    decide
  · rw [heq]
    dsimp only
    unfold base_html
    apply strHasSub_append_left
    apply strHasSub_append_left
    apply strHasSub_append_left
    apply strHasSub_append_right
    unfold verifyTitle
    apply strHasSub_append_left
    apply strHasSub_append_right
    exact strHasSub_self p.title

/-- Claim C6 (amended) at a concrete input. -/
theorem verify_missing_return_url_witness :
    verify app_podcasts "alice-podcast"
        { encrypted_string := some "tok", return_url := none } =
      (StatusCode.badRequest,
        base_html (verifyTitle alice_podcast)
          ("<h1>" ++ verifyTitle alice_podcast ++ "</h1>" ++
            errorFragment "URL parameter <code>returnUrl</code> is required.")) ∧
    strHasSub (verify app_podcasts "alice-podcast"
        { encrypted_string := some "tok", return_url := none }).2
      "returnUrl" = true ∧
    strHasSub (verify app_podcasts "alice-podcast"
        { encrypted_string := some "tok", return_url := none }).2
      alice_podcast.title = true ∧
    StatusCode.badRequest.code = 400 :=
  verify_missing_return_url app_podcasts "alice-podcast" alice_podcast "tok"
    (by decide)

/-- Claim C7 as stated is false: with a known slug, a valid `returnUrl`
and no challenge token, the handler answers 400, but the response does
not carry the `returnUrl` — it is never parsed at that point. -/
theorem verify_missing_token_counterexample :
    (verify app_podcasts "alice-podcast"
        { encrypted_string := none,
          return_url := some "http://example.com/back" }).1 =
      StatusCode.badRequest ∧
    strHasSub (verify app_podcasts "alice-podcast"
        { encrypted_string := none,
          return_url := some "http://example.com/back" }).2
      "http://example.com/back" = false := by
  exact ⟨rfl, by decide⟩

/-- Claim C7 (amended): for every verification request with a known slug
and no `encryptedString` (challenge token), whatever the `returnUrl`
parameter, the outcome is 400 Bad Request whose body references the
resolved podcast's title and the `encryptedString` parameter; the
`returnUrl` is neither parsed nor carried in the response. -/
theorem verify_missing_token (podcasts : List Podcast) (slug : String)
    (p : Podcast) (ru : Option String)
    (hp : slug_to_podcast podcasts slug = some p) :
    verify podcasts slug { encrypted_string := none, return_url := ru } =
      (StatusCode.badRequest,
        base_html (verifyTitle p)
          ("<h1>" ++ verifyTitle p ++ "</h1>" ++
            errorFragment
              "URL parameter <code>encryptedString</code> is required.")) ∧
    strHasSub (verify podcasts slug
        { encrypted_string := none, return_url := ru }).2
      p.title = true ∧
    strHasSub (verify podcasts slug
        { encrypted_string := none, return_url := ru }).2
      "encryptedString" = true ∧
    StatusCode.badRequest.code = 400 := by
  have heq : verify podcasts slug
      { encrypted_string := none, return_url := ru } =
      (StatusCode.badRequest,
        base_html (verifyTitle p)
          ("<h1>" ++ verifyTitle p ++ "</h1>" ++
            errorFragment
              "URL parameter <code>encryptedString</code> is required.")) := by
    unfold verify
    rw [hp]
  refine ⟨heq, ?_, ?_, rfl⟩
  · rw [heq]
    dsimp only
    unfold base_html
    apply strHasSub_append_left
    apply strHasSub_append_left
    apply strHasSub_append_left
    apply strHasSub_append_right
    unfold verifyTitle
    apply strHasSub_append_left
    apply strHasSub_append_right
    exact strHasSub_self p.title
  · rw [heq]
    dsimp only
    unfold base_html
    apply strHasSub_append_left
    apply strHasSub_append_right
    apply strHasSub_append_right
    unfold errorFragment
    apply strHasSub_append_left
    apply strHasSub_append_right
    decide

/-- Claim C7 (amended) at a concrete input. -/
theorem verify_missing_token_witness :
    verify app_podcasts "bob-podcast"
        { encrypted_string := none,
          return_url := some "http://example.com/back" } =
      (StatusCode.badRequest,
        base_html (verifyTitle bob_podcast)
          ("<h1>" ++ verifyTitle bob_podcast ++ "</h1>" ++
            errorFragment
              "URL parameter <code>encryptedString</code> is required.")) ∧
    strHasSub (verify app_podcasts "bob-podcast"
        { encrypted_string := none,
          return_url := some "http://example.com/back" }).2
      bob_podcast.title = true ∧
    strHasSub (verify app_podcasts "bob-podcast"
        { encrypted_string := none,
          return_url := some "http://example.com/back" }).2
      "encryptedString" = true ∧
    StatusCode.badRequest.code = 400 :=
  verify_missing_token app_podcasts "bob-podcast" bob_podcast
    (some "http://example.com/back") (by decide)

/-- Claim C3 as stated is false: a fully valid request does return 200,
but the rendered form offers no email suggestions at all — not even the
registered owners' emails appear anywhere in the response. -/
theorem verify_valid_request_counterexample :
    (verify app_podcasts "alice-podcast"
        { encrypted_string := some "tok",
          return_url := some "http://example.com/back" }).1 =
      StatusCode.ok ∧
    strHasSub (verify app_podcasts "alice-podcast"
        { encrypted_string := some "tok",
          return_url := some "http://example.com/back" }).2
      "alice@example.com" = false ∧
    strHasSub (verify app_podcasts "alice-podcast"
        { encrypted_string := some "tok",
          return_url := some "http://example.com/back" }).2
      "bob@example.com" = false := by
  exact ⟨rfl, by decide, by decide⟩

/-- Claim C3 (amended): for every fully valid verification request against
the registry of `main()` (known slug, parsing `returnUrl`, present
`encryptedString`), the response status is 200 and the body is the
credential-entry form for the resolved podcast; the form has an email
input but offers no email suggestions: no registered owner's email occurs
anywhere in the response. -/
theorem verify_valid_request (slug tok ru : String) (p : Podcast)
    (u : ParsedUrl)
    (hp : slug_to_podcast app_podcasts slug = some p)
    (hu : urlParse ru = some u) :
    verify app_podcasts slug
        { encrypted_string := some tok, return_url := some ru } =
      (StatusCode.ok,
        base_html (verifyTitle p)
          ("<h1>" ++ verifyTitle p ++ credentialFormHtml)) ∧
    strHasSub (verify app_podcasts slug
        { encrypted_string := some tok, return_url := some ru }).2
      "<form method=\"POST\"" = true ∧
    strHasSub (verify app_podcasts slug
        { encrypted_string := some tok, return_url := some ru }).2
      "name=\"email\"" = true ∧
    (∀ q ∈ app_podcasts,
      strHasSub (verify app_podcasts slug
          { encrypted_string := some tok, return_url := some ru }).2
        q.owner.email = false) ∧
    StatusCode.ok.code = 200 := by
  have heq : verify app_podcasts slug
      { encrypted_string := some tok, return_url := some ru } =
      (StatusCode.ok,
        base_html (verifyTitle p)
          ("<h1>" ++ verifyTitle p ++ credentialFormHtml)) := by
    unfold verify
    rw [hp]
    dsimp only
    rw [hu]
  refine ⟨heq, ?_, ?_, ?_, rfl⟩
  · rw [heq]
    dsimp only
    unfold base_html
    apply strHasSub_append_left
    apply strHasSub_append_right
    apply strHasSub_append_right
    decide
  · rw [heq]
    dsimp only
    unfold base_html
    apply strHasSub_append_left
    apply strHasSub_append_right
    apply strHasSub_append_right
    decide
  · intro q hq
    have hmem := mem_of_slug_to_podcast hp
    rw [heq]
    dsimp only
    have hq2 : q = alice_podcast ∨ q = bob_podcast := by
      simpa [app_podcasts] using hq
    have hp2 : p = alice_podcast ∨ p = bob_podcast := by
      simpa [app_podcasts] using hmem
    rcases hp2 with h1 | h1 <;> subst h1 <;>
      rcases hq2 with h2 | h2 <;> subst h2 <;> decide

/-- Claim C3 (amended) at a concrete input: the form renders and contains
a `POST` form. -/
theorem verify_valid_request_witness :
    strHasSub (verify app_podcasts "alice-podcast"
        { encrypted_string := some "tok",
          return_url := some "http://example.com/back" }).2
      "<form method=\"POST\"" = true :=
  (verify_valid_request "alice-podcast" "tok" "http://example.com/back"
    alice_podcast { scheme := "http", rest := "//example.com/back" }
    (by decide) (by decide)).2.1

/-- Claim C5 as stated is false: the feed's verification element does not
carry `verifyUrl="/feed/{slug}/verify"` — the attribute holds the absolute
URL `http://localhost:8081/feed/{slug}/verify` instead. -/
theorem feed_verify_url_counterexample :
    strHasSub (Podcast.feed alice_podcast examplePem)
      "verifyUrl=\"/feed/alice-podcast/verify\"" = false ∧
    strHasSub (Podcast.feed alice_podcast examplePem)
      "verifyUrl=\"http://localhost:8081/feed/alice-podcast/verify\"" = true ∧
    feed { podcasts := app_podcasts, public_key_pem := examplePem }
        "alice-podcast" =
      Except.ok ("application/xml", Podcast.feed alice_podcast examplePem) := by
  exact ⟨by decide, by decide, rfl⟩

/-- Claim C5 (amended): for every registered slug, the `feed` handler
succeeds (rendered 200) with the XML feed document, whose verification
element carries `verifyUrl="http://localhost:8081/feed/{slug}/verify"`
and whose `publicKey` attribute is exactly the framing-stripped PEM
encoding (`pem_to_base64`) of the process's public key. -/
theorem feed_known_slug (state : AppState) (slug : String) (p : Podcast)
    (hp : slug_to_podcast state.podcasts slug = some p) :
    feed state slug =
      Except.ok ("application/xml", Podcast.feed p state.public_key_pem) ∧
    strHasSub (Podcast.feed p state.public_key_pem)
      ("verifyUrl=\"http://localhost:8081/feed/" ++ slug ++ "/verify\"") =
      true ∧
    strHasSub (Podcast.feed p state.public_key_pem)
      ("publicKey=\"" ++ pem_to_base64 state.public_key_pem ++ "\"") = true ∧
    StatusCode.ok.code = 200 := by
  have hs : p.slug = slug := slug_of_slug_to_podcast hp
  subst hs
  refine ⟨?_, ?_, ?_, rfl⟩
  · unfold feed
    rw [hp]
  · unfold Podcast.feed
    apply strHasSub_append_left
    apply strHasSub_append_left
    apply strHasSub_append_left
    apply strHasSub_append_right
    exact strHasSub_self _
  · unfold Podcast.feed
    apply strHasSub_append_left
    apply strHasSub_append_right
    exact strHasSub_self _

/-- Claim C5 (amended) at a concrete input. -/
theorem feed_known_slug_witness :
    strHasSub (Podcast.feed bob_podcast examplePem)
      ("verifyUrl=\"http://localhost:8081/feed/" ++ "bob-podcast" ++
        "/verify\"") = true :=
  (feed_known_slug { podcasts := app_podcasts, public_key_pem := examplePem }
    "bob-podcast" bob_podcast (by decide)).2.1
